import Mathlib

/-!
# Verification of the Cosense RAG pipeline

Shallow embedding of the sparse-vector retrieval and streaming-generation
pipeline: the SPLADE encoder post-processing (`splade-api/main.py`), the
orchestrator (`app-api/main.py`), the ingestion batching loop
(`indexer/index_data.py`) and the client-side stream parser
(`web-ui/app.py`).

Floating-point weights are modelled as rationals; external library calls
(the neural model forward pass, the text splitter, `json.loads`,
`json.dumps` string/number atom serialization) are abstracted as function
parameters, while every piece of control flow written in the repository is
translated directly.
-/

namespace RagPipeline

/-- A sparse vector as built by the services: a Python dict of
token → weight, modelled as an association list in insertion order. -/
abbrev SparseVec := List (String × Rat)

namespace SpladeApi

/-- `token.replace(".", "_")` from `splade-api/main.py` (line 77): since the
pattern is a single character, Python's `str.replace` is a character map. -/
def sanitize (t : String) : String :=
  ⟨t.data.map fun c => if c = '.' then '_' else c⟩

/-- Python 3 `round` to an integer: round half to even (banker's rounding). -/
def roundHalfEven (q : Rat) : Int :=
  if q - ⌊q⌋ < 1/2 then ⌊q⌋
  else if 1/2 < q - ⌊q⌋ then ⌊q⌋ + 1
  else if ⌊q⌋ % 2 = 0 then ⌊q⌋ else ⌊q⌋ + 1

/-- Python `round(w, 4)` from `splade-api/main.py` (line 78), over rationals. -/
def pyRound4 (w : Rat) : Rat :=
  (roundHalfEven (w * 10000) : Rat) / 10000

/-- Python dict assignment `d[k] = v`: an existing key keeps its position and
gets the new value, a fresh key is appended. -/
def insertEntry (m : SparseVec) (k : String) (v : Rat) : SparseVec :=
  if m.any fun kv => kv.1 = k then
    m.map fun kv => if kv.1 = k then (k, v) else kv
  else m ++ [(k, v)]

/-- The loop `for idx in indices: ...` of `encode` (`splade-api/main.py`
lines 71-78), with `indices = weights.nonzero()` fused in: we walk the
indexed weight list and skip zero entries, exactly the indices
`nonzero()` would skip.  `f` is `id_to_token` (the tokenizer vocabulary). -/
def encodeLoop (f : Nat → String) : List (Nat × Rat) → SparseVec → SparseVec
  | [], sv => sv
  | (idx, w) :: rest, sv =>
    if w ≠ 0 then
      if 0 < w then
        encodeLoop f rest (insertEntry sv (sanitize (f idx)) (pyRound4 w))
      else encodeLoop f rest sv
    else encodeLoop f rest sv

/-- Post-processing of `encode` from `splade-api/main.py`: the model forward
pass and SPLADE aggregation produce `weights` (one per vocabulary id, here
given as input since the neural scorer is an external model); the loop keeps
nonzero, strictly positive weights, sanitizes the token and rounds to four
decimal places. -/
def encode (f : Nat → String) (weights : List Rat) : SparseVec :=
  encodeLoop f weights.enum []

end SpladeApi

namespace AppApi

/-- One retrieved document as assembled by `search_documents`
(`app-api/main.py` lines 101-109). -/
structure Hit where
  title : String
  content : String
  url : String
  score : Rat
deriving DecidableEq, Repr

/-- One raw hit of the search backend's response (`hit["_source"]` plus
`hit["_score"]`); the `_source` fields are optional, read with `.get`
defaults. -/
structure EsHit where
  src_title : Option String
  src_content : Option String
  src_url : Option String
  score : Rat
deriving DecidableEq, Repr

/-- Outcome of the HTTP call to the SPLADE service inside `get_query_vector`
(`app-api/main.py` lines 47-66).  `ok body` is a success status whose JSON
body optionally carries the `sparse_vector` field; the three error cases are
the three `except` arms: `httpx.HTTPStatusError` (a non-success status, from
`raise_for_status`), `httpx.RequestError`, and any other exception. -/
inductive EncoderOutcome where
  | ok (body : Option SparseVec)
  | statusError (code : Nat)
  | requestError
  | otherError (msg : String)
deriving DecidableEq

/-- Outcome of `es_client.search` inside `search_documents`: either the
backend's hit list, or any exception (transport or backend failure). -/
inductive SearchOutcome where
  | ok (hits : List EsHit)
  | fail
deriving DecidableEq

/-- One line of the generator backend's newline-delimited stream, as consumed
by `generate_response_stream` (`app-api/main.py` lines 180-190): a blank line
(skipped), a line that fails `json.loads` (skipped), or a parsed record
optionally carrying a `response` text fragment and a `done` flag. -/
inductive OllamaLine where
  | blank
  | invalid
  | chunk (response : Option String) (done : Bool)
deriving DecidableEq

/-- Outcome of the streaming call to the generator backend
(`app-api/main.py` lines 173-193): a non-200 status, or a line stream;
`midFail` records an `httpx.RequestError` raised while (or before) iterating
the lines, after the listed ones were delivered. -/
inductive OllamaOutcome where
  | httpError (code : Nat)
  | stream (lines : List OllamaLine) (midFail : Bool)
deriving DecidableEq

/-- The validated request schema `QueryRequest` (`app-api/main.py`
lines 25-27): `user_query` required, `top_k` defaulting to 5 with no
positivity constraint. -/
structure QueryRequest where
  user_query : String
  top_k : Int
deriving DecidableEq, Repr

/-- The three backend outcomes a single `/query` request observes. -/
structure Backends where
  encoder : EncoderOutcome
  search : SearchOutcome
  ollama : OllamaOutcome

/-- `get_query_vector` (`app-api/main.py` lines 35-66): on success return
`data.get("sparse_vector", {})`; a status error or transport error becomes an
HTTP 503, any other exception an HTTP 500.  The error value is the
`(status_code, detail)` pair of the raised `HTTPException`. -/
def get_query_vector : EncoderOutcome → Except (Nat × String) SparseVec
  | .ok body => .ok (body.getD [])
  | .statusError code => .error (503, "Vectorization service error: " ++ toString code)
  | .requestError => .error (503, "Vectorization service unreachable")
  | .otherError msg => .error (500, msg)

/-- `search_documents` (`app-api/main.py` lines 68-113).  An empty query
vector returns `[]` before any backend call; otherwise the backend is called
(the second component records that a call was issued) and any exception is
converted to `[]`.  `top_k` is passed to the backend as the request `size`;
the hits of the modelled outcome already reflect it. -/
def search_documents (query_vector : SparseVec) (out : SearchOutcome) (top_k : Int) :
    List Hit × Bool :=
  if query_vector.isEmpty then ([], false)
  else
    match out with
    | .ok hits =>
      (hits.map fun h =>
        { title := h.src_title.getD "Untitled"
          content := h.src_content.getD ""
          url := h.src_url.getD ""
          score := h.score }, true)
    | .fail => ([], true)

/-- `build_prompt` (`app-api/main.py` lines 115-144), with the two Japanese
templates verbatim. -/
def build_prompt (query : String) (contexts : List Hit) : String :=
  if contexts.isEmpty then
    "ユーザーの質問: " ++ query ++
      "\n\n関連する情報がナレッジベースで見つかりませんでした。一般的な知識で回答してください。"
  else
    let context_text := String.intercalate "\n\n" (contexts.enum.map fun p =>
      "--- ソース: " ++ toString (p.1 + 1) ++ ". " ++ p.2.title ++ " (" ++ p.2.url ++ ") ---\n"
        ++ p.2.content)
    "あなたはScrapbox（Cosense）の情報を基に回答するAIアシスタントです。\n" ++
      "以下のコンテキスト情報を使用して、ユーザーの質問に日本語で分かりやすく、かつ正確に答えてください。\n" ++
      "回答には、参考にしたソースのタイトルを必ず含めてください。\n\n# コンテキスト情報:\n" ++
      context_text ++ "\n\n# ユーザーの質問:\n" ++ query ++ "\n\n# 回答:\n"

/-- A JSON value, as far as the orchestrator's metadata record needs. -/
inductive Json where
  | str (s : String)
  | num (q : Rat)
  | arr (elems : List Json)
  | obj (fields : List (String × Json))
deriving Repr

mutual

/-- `json.dumps` with its default separators: keys in insertion order,
`", "` between items and elements, `": "` after keys.  `ds` is the library's
string-atom serializer (quoting plus escaping) and `dn` its float
serializer, both abstracted since they are library code. -/
def dumps (ds : String → String) (dn : Rat → String) : Json → String
  | .str s => ds s
  | .num q => dn q
  | .arr es => "[" ++ dumpsArr ds dn es ++ "]"
  | .obj fs => "\x7b" ++ dumpsObj ds dn fs ++ "\x7d"

/-- Elements of a JSON array, `", "`-separated. -/
def dumpsArr (ds : String → String) (dn : Rat → String) : List Json → String
  | [] => ""
  | [e] => dumps ds dn e
  | e :: e' :: rest => dumps ds dn e ++ ", " ++ dumpsArr ds dn (e' :: rest)

/-- Fields of a JSON object, `", "`-separated, `": "` after each key. -/
def dumpsObj (ds : String → String) (dn : Rat → String) : List (String × Json) → String
  | [] => ""
  | [f] => ds f.1 ++ ": " ++ dumps ds dn f.2
  | f :: f' :: rest => ds f.1 ++ ": " ++ dumps ds dn f.2 ++ ", " ++ dumpsObj ds dn (f' :: rest)

end

/-- The `metadata` dict built at the top of `generate_response_stream`
(`app-api/main.py` lines 154-160): `type` first, then `sources`, the
`{title, url, score}` projection of the retrieved hits in order. -/
def metadataJson (contexts : List Hit) : Json :=
  .obj [("type", .str "metadata"),
        ("sources", .arr (contexts.map fun c =>
          .obj [("title", .str c.title), ("url", .str c.url), ("score", .num c.score)]))]

/-- `json.dumps(metadata)` from `app-api/main.py` line 161. -/
def metadataDump (ds : String → String) (dn : Rat → String) (contexts : List Hit) : String :=
  dumps ds dn (metadataJson contexts)

/-- The `async for line in response.aiter_lines()` loop of
`generate_response_stream` (`app-api/main.py` lines 180-190): blank lines and
undecodable lines are skipped; a record's `response` field is yielded when
present; iteration breaks at the first record whose `done` field is truthy. -/
def consumeLines : List OllamaLine → List String
  | [] => []
  | .blank :: rest => consumeLines rest
  | .invalid :: rest => consumeLines rest
  | .chunk resp done :: rest =>
    (match resp with | some t => [t] | none => []) ++
      (if done then [] else consumeLines rest)

/-- Whether the line loop exits via the `break` on a `done` record (in which
case no further read happens, so no mid-stream transport error can fire). -/
def stoppedEarly : List OllamaLine → Bool
  | [] => false
  | .blank :: rest => stoppedEarly rest
  | .invalid :: rest => stoppedEarly rest
  | .chunk _ done :: rest => done || stoppedEarly rest

/-- The generator-consuming part of `generate_response_stream`
(`app-api/main.py` lines 173-193): a non-200 status yields one error string
and returns; otherwise the lines are consumed, and an `httpx.RequestError`
(modelled by `midFail`, only reachable when the loop did not `break`) is
converted into an inline error fragment. -/
def ollamaBody : OllamaOutcome → List String
  | .httpError code => ["Error: LLM service returned " ++ toString code]
  | .stream lines midFail =>
    consumeLines lines ++
      (if midFail && !stoppedEarly lines then ["Error: Failed to connect to LLM service."]
       else [])

/-- `generate_response_stream` (`app-api/main.py` lines 146-193) as the list
of strings the async generator yields: the serialized metadata record plus
the `"\n---\n"` delimiter first, then the generator body. -/
def generate_response_stream (ds : String → String) (dn : Rat → String)
    (contexts : List Hit) (o : OllamaOutcome) : List String :=
  (metadataDump ds dn contexts ++ "\n---\n") :: ollamaBody o

/-- What a `/query` request produces when no `HTTPException` is raised: the
prompt handed to the generator and the streamed response body. -/
structure QueryResponse where
  prompt : String
  stream : List String
deriving DecidableEq

/-- The `query` endpoint body (`app-api/main.py` lines 197-214) after
validation: vectorize (aborting on its `HTTPException`), retrieve, build the
prompt, and open the response stream. -/
def query_pipeline (ds : String → String) (dn : Rat → String)
    (req : QueryRequest) (b : Backends) : Except (Nat × String) QueryResponse :=
  match get_query_vector b.encoder with
  | .error e => .error e
  | .ok query_vector =>
    let contexts := (search_documents query_vector b.search req.top_k).1
    let prompt := build_prompt req.user_query contexts
    .ok ⟨prompt, generate_response_stream ds dn contexts b.ollama⟩

/-- A JSON value of the request payload, restricted to the shapes the claims
need. -/
inductive JVal where
  | jstr (s : String)
  | jint (n : Int)
  | jnull
deriving DecidableEq

/-- The raw `/query` payload before pydantic validation: each schema field is
present with some JSON value or absent. -/
structure RawPayload where
  user_query : Option JVal
  top_k : Option JVal
deriving DecidableEq

/-- Pydantic's lax coercion to `int`: integers pass through, numeric strings
are coerced, `null` is rejected. -/
def coerceInt : JVal → Option Int
  | .jint n => some n
  | .jstr s => s.toInt?
  | .jnull => none

/-- Pydantic's lax coercion to `str`: only strings are accepted. -/
def coerceStr : JVal → Option String
  | .jstr s => some s
  | _ => none

/-- Validation of `QueryRequest` (`app-api/main.py` lines 25-27) as pydantic
performs it on the raw payload: `user_query` is required and must be a
string; `top_k` defaults to `5` and must coerce to an integer.  No field
constrains `top_k`'s sign. -/
def parseQueryRequest (p : RawPayload) : Except String QueryRequest :=
  match p.user_query with
  | none => .error "user_query: Field required"
  | some v =>
    match coerceStr v with
    | none => .error "user_query: Input should be a valid string"
    | some s =>
      match p.top_k with
      | none => .ok ⟨s, 5⟩
      | some w =>
        match coerceInt w with
        | none => .error "top_k: Input should be a valid integer"
        | some n => .ok ⟨s, n⟩

/-- A request-level failure: FastAPI's 422 validation rejection (before the
endpoint body runs) or an `HTTPException` raised inside it. -/
inductive HandleError where
  | validation (msg : String)
  | http (code : Nat) (msg : String)
deriving DecidableEq

/-- The full `/query` request handling: FastAPI validates the payload against
`QueryRequest` and only on success runs the endpoint body. -/
def handle (ds : String → String) (dn : Rat → String)
    (p : RawPayload) (b : Backends) : Except HandleError QueryResponse :=
  match parseQueryRequest p with
  | .error m => .error (.validation m)
  | .ok req =>
    match query_pipeline ds dn req b with
    | .error e => .error (.http e.1 e.2)
    | .ok r => .ok r

end AppApi

namespace Indexer

/-- One fetched wiki page (`indexer/index_data.py`): title, full content,
public URL. -/
structure Document where
  title : String
  content : String
  url : String
deriving DecidableEq

/-- One bulk action's `_source` document as built in `index_documents`
(`indexer/index_data.py` lines 120-129). -/
structure Action where
  title : String
  content : String
  url : String
  sparse_vector : RagPipeline.SparseVec
  chunk_id : Nat
deriving DecidableEq

/-- Per-document chunk processing of `index_documents`
(`indexer/index_data.py` lines 108-130): split the content (`split` is the
external `RecursiveCharacterTextSplitter`), encode `"{title}\n{chunk}"`
(`enc` is the remote SPLADE call, `{}` on failure), skip chunks whose vector
is empty, keep only strictly positive weights, and skip chunks whose
filtered vector is empty. -/
def chunkActions (split : String → List String) (enc : String → RagPipeline.SparseVec)
    (doc : Document) : List Action :=
  (split doc.content).enum.filterMap fun p =>
    let sparse_vector := enc (doc.title ++ "\n" ++ p.2)
    if sparse_vector.isEmpty then none
    else
      let filtered_vector := sparse_vector.filter fun kv => 0 < kv.2
      if filtered_vector.isEmpty then none
      else some ⟨doc.title, p.2, doc.url, filtered_vector, p.1⟩

/-- The full action stream of an ingestion run, documents in order. -/
def buildActions (split : String → List String) (enc : String → RagPipeline.SparseVec)
    (docs : List Document) : List Action :=
  docs.flatMap (chunkActions split enc)

/-- A bulk rejection: `helpers.BulkIndexError` carrying one error detail per
failed document (`e.errors`, printed per document before re-raising). -/
structure BulkError where
  errors : List String
deriving DecidableEq

/-- The store's response to one `helpers.async_bulk` call; `run_batch`
(`indexer/index_data.py` lines 98-106) re-raises the `BulkIndexError` after
printing the per-document detail, so a rejection aborts the run. -/
abbrev Store := List Action → Except BulkError Unit

/-- The accumulation-and-flush loop of `index_documents`
(`indexer/index_data.py` lines 108-135) over the flattened action stream:
each action is appended to `actions`; at 50 pending actions the batch is
flushed through `run_batch`, which aborts the run on rejection; a trailing
non-empty batch is flushed after the loop.  Returns the batches committed by
the store, in order, and the error that aborted the run, if any. -/
def indexLoop (store : Store) :
    List Action → List Action → List (List Action) → List (List Action) × Option BulkError
  | [], pending, committed =>
    if pending.isEmpty then (committed, none)
    else
      match store pending with
      | .ok _ => (committed ++ [pending], none)
      | .error e => (committed, some e)
  | a :: rest, pending, committed =>
    let pending' := pending ++ [a]
    if 50 ≤ pending'.length then
      match store pending' with
      | .ok _ => indexLoop store rest [] (committed ++ [pending'])
      | .error e => (committed, some e)
    else indexLoop store rest pending' committed

/-- `index_documents` (`indexer/index_data.py` lines 93-136): chunk,
vectorize and filter every document into the action stream, then write it in
batches of 50. -/
def index_documents (split : String → List String) (enc : String → RagPipeline.SparseVec)
    (store : Store) (docs : List Document) : List (List Action) × Option BulkError :=
  indexLoop store (buildActions split enc docs) [] []

/-- Grouping into consecutive batches of at most 50, the batch size
`index_documents` flushes at. -/
def chunksOf50 : List Action → List (List Action)
  | [] => []
  | a :: rest => (a :: rest).take 50 :: chunksOf50 ((a :: rest).drop 50)
termination_by l => l.length
decreasing_by
  simp only [List.length_drop, List.length_cons]
  omega

/-- Modelled from the spec: the batch-write policy of §4.2 step 4 — flush the
prepared batches in order, stop at the first batch the store rejects,
keep the batches already accepted (no rollback), and report the rejection. -/
def flushSpec (store : Store) : List (List Action) → List (List Action) × Option BulkError
  | [] => ([], none)
  | b :: bs =>
    match store b with
    | .ok _ =>
      let r := flushSpec store bs
      (b :: r.1, r.2)
    | .error e => ([], some e)

end Indexer

namespace WebUI

/-- The wire delimiter between the metadata frame and the generated text. -/
def delim : List Char := "\n---\n".data

/-- Python `buffer.split(d, 1)` restricted to the found case, over character
lists: `some (head, tail)` splits at the first occurrence of `d`; `none`
means `d not in buffer` (so `"d in buffer"` is `(splitFirst d s).isSome`). -/
def splitFirst (d : List Char) : List Char → Option (List Char × List Char)
  | [] => none
  | c :: cs =>
    if d.isPrefixOf (c :: cs) then some ([], (c :: cs).drop d.length)
    else
      match splitFirst d cs with
      | some (p, q) => some (c :: p, q)
      | none => none

/-- The loop state of the stream consumer in `web-ui/app.py` (lines 81-102):
the accumulated buffer, the metadata flag, the extracted sources (of an
abstract type `α`, whatever `json.loads` produced for them) and the text
shown so far. -/
structure UIState (α : Type) where
  buffer : List Char
  metadata_received : Bool
  sources : List α
  full_response : List Char
deriving DecidableEq

/-- The state before the first read: `buffer = ""`, `metadata_received =
False`, `sources = []`, `full_response = ""`. -/
def uiInit (α : Type) : UIState α := ⟨[], false, [], []⟩

/-- One iteration of `for chunk in response.iter_text()` (`web-ui/app.py`
lines 84-102).  `parse` abstracts `json.loads(parts[0])` followed by the
`type == "metadata"` check and `metadata.get("sources", [])`: `none` covers
both a `JSONDecodeError` (the `except: pass` arm) and a record of a
different type (the `if` guard failing), each of which leaves the state
unchanged apart from the grown buffer. -/
def uiStep {α : Type} (parse : List Char → Option (List α))
    (st : UIState α) (chunk : List Char) : UIState α :=
  let buffer := st.buffer ++ chunk
  let st1 : UIState α :=
    if st.metadata_received then { st with buffer := buffer }
    else
      match splitFirst delim buffer with
      | some (p, rest) =>
        match parse p with
        | some srcs =>
          { buffer := rest, metadata_received := true, sources := srcs
            full_response := st.full_response }
        | none => { st with buffer := buffer }
      | none => { st with buffer := buffer }
  if st1.metadata_received then { st1 with full_response := st1.buffer } else st1

/-- The whole read loop: fold `uiStep` over the received chunks. -/
def uiRun {α : Type} (parse : List Char → Option (List α))
    (chunks : List (List Char)) : UIState α :=
  chunks.foldl (uiStep parse) (uiInit α)

end WebUI

/-! ## Properties of the query pipeline (claims C4, C5, C9, C10) -/

namespace AppApi

/-- C5: for every top_k, calling search with an empty SparseVector (no
entries) returns the empty list and issues no call to the search backend. -/
theorem C5_empty_vector_short_circuits (out : SearchOutcome) (top_k : Int) :
    search_documents [] out top_k = ([], false) := rfl

/-- An index search failure is always converted to an empty hit list. -/
theorem search_fail_gives_empty (query_vector : SparseVec) (top_k : Int) :
    (search_documents query_vector .fail top_k).1 = [] := by
  unfold search_documents
  split <;> rfl

/-- C4: only an encoder failure aborts a query request — a non-success
status or a transport error of the vectorization service yields an HTTP 503
error and no stream — while with the encoder succeeding the request always
produces a stream, whatever the search backend does; a search failure is
converted to an empty hit list inside the search step and the request
proceeds to prompting and streaming with empty context. -/
theorem C4_error_propagation_policy (ds : String → String) (dn : Rat → String)
    (req : QueryRequest) (b : Backends) :
    (∀ c, b.encoder = .statusError c →
      query_pipeline ds dn req b = .error (503, "Vectorization service error: " ++ toString c))
    ∧ (b.encoder = .requestError →
      query_pipeline ds dn req b = .error (503, "Vectorization service unreachable"))
    ∧ (∀ body, b.encoder = .ok body →
      query_pipeline ds dn req b =
        .ok ⟨build_prompt req.user_query (search_documents (body.getD []) b.search req.top_k).1,
             generate_response_stream ds dn
               (search_documents (body.getD []) b.search req.top_k).1 b.ollama⟩)
    ∧ (∀ query_vector top_k, (search_documents query_vector .fail top_k).1 = [])
    ∧ (∀ body, b.encoder = .ok body → b.search = .fail →
      query_pipeline ds dn req b =
        .ok ⟨build_prompt req.user_query [], generate_response_stream ds dn [] b.ollama⟩) := by
  obtain ⟨enc, srch, oll⟩ := b
  refine ⟨?_, ?_, ?_, ?_, ?_⟩
  · rintro c rfl; rfl
  · rintro rfl; rfl
  · rintro body rfl; rfl
  · exact fun qv k => search_fail_gives_empty qv k
  · rintro body rfl rfl
    simp only [query_pipeline, get_query_vector]
    rw [show (search_documents (body.getD []) SearchOutcome.fail req.top_k).1 = [] from
      search_fail_gives_empty _ _]

/-- C4 witness: a concrete request whose encoder call fails with a 500
status aborts with a 503 and no stream, and the same request with a working
encoder but a failing search backend streams with empty context. -/
theorem C4_error_propagation_policy_witness :
    query_pipeline (fun s => s) (fun _ => "0") ⟨"q", 5⟩
        ⟨.statusError 500, .fail, .stream [] false⟩ =
      .error (503, "Vectorization service error: 500")
    ∧ query_pipeline (fun s => s) (fun _ => "0") ⟨"q", 5⟩
        ⟨.ok (some [("t", 1)]), .fail, .stream [] false⟩ =
      .ok ⟨build_prompt "q" [], generate_response_stream (fun s => s) (fun _ => "0") []
            (.stream [] false)⟩ :=
  ⟨(C4_error_propagation_policy (fun s => s) (fun _ => "0") ⟨"q", 5⟩
      ⟨.statusError 500, .fail, .stream [] false⟩).1 500 rfl,
   (C4_error_propagation_policy (fun s => s) (fun _ => "0") ⟨"q", 5⟩
      ⟨.ok (some [("t", 1)]), .fail, .stream [] false⟩).2.2.2.2 (some [("t", 1)]) rfl rfl⟩

/-- C10: an encoder success whose body lacks the `sparse_vector` field is
read as the empty mapping, not an error; the request then degrades exactly
like a no-match retrieval: no search call is issued, the general-knowledge
prompt is used, and a stream is opened. -/
theorem C10_missing_field_degrades (ds : String → String) (dn : Rat → String)
    (req : QueryRequest) (b : Backends) (h : b.encoder = .ok none) :
    get_query_vector b.encoder = .ok []
    ∧ search_documents [] b.search req.top_k = ([], false)
    ∧ query_pipeline ds dn req b =
        .ok ⟨build_prompt req.user_query [], generate_response_stream ds dn [] b.ollama⟩
    ∧ build_prompt req.user_query [] =
        "ユーザーの質問: " ++ req.user_query ++
          "\n\n関連する情報がナレッジベースで見つかりませんでした。一般的な知識で回答してください。" := by
  obtain ⟨enc, srch, oll⟩ := b
  cases h
  exact ⟨rfl, rfl, rfl, rfl⟩

/-- C10 witness: a concrete request whose encoder responds without a
`sparse_vector` field proceeds to an open stream over the general-knowledge
prompt. -/
theorem C10_missing_field_degrades_witness :
    query_pipeline (fun s => s) (fun _ => "0") ⟨"q", 5⟩ ⟨.ok none, .ok [], .stream [] false⟩ =
      .ok ⟨build_prompt "q" [], generate_response_stream (fun s => s) (fun _ => "0") []
            (.stream [] false)⟩ :=
  (C10_missing_field_degrades (fun s => s) (fun _ => "0") ⟨"q", 5⟩
    ⟨.ok none, .ok [], .stream [] false⟩ rfl).2.2.1

/-- C9 counterexample: the payload `{"user_query": "q", "top_k": 0}` — whose
`top_k` is an integer but not greater than 0 — passes validation unchanged
and the pipeline runs to a streamed response, so it is not rejected before
any stage. -/
theorem C9_counterexample_top_k_zero_accepted :
    parseQueryRequest ⟨some (.jstr "q"), some (.jint 0)⟩ = .ok ⟨"q", 0⟩
    ∧ handle (fun s => s) (fun _ => "0") ⟨some (.jstr "q"), some (.jint 0)⟩
        ⟨.ok (some [("t", 1)]), .ok [], .stream [] false⟩ =
      .ok ⟨build_prompt "q" [], generate_response_stream (fun s => s) (fun _ => "0") []
            (.stream [] false)⟩ :=
  ⟨by rfl, by rfl⟩

/-- C9 (amended): a payload missing `user_query`, or whose `user_query` is
not a string, or whose `top_k` does not coerce to an integer, is rejected by
validation before any pipeline stage executes — the outcome is the same for
every backend state, so no stage runs and there are no side effects.  A
`top_k` that is an integer is accepted whatever its sign (the schema has no
positivity constraint). -/
theorem C9_validation_rejects_before_stages (ds : String → String) (dn : Rat → String)
    (p : RawPayload) (b b' : Backends) :
    (p.user_query = none → ∃ m, parseQueryRequest p = .error m)
    ∧ (p.user_query = some .jnull → ∃ m, parseQueryRequest p = .error m)
    ∧ (∀ n, p.user_query = some (.jint n) → ∃ m, parseQueryRequest p = .error m)
    ∧ (p.top_k = some .jnull → ∃ m, parseQueryRequest p = .error m)
    ∧ (∀ m, parseQueryRequest p = .error m →
        handle ds dn p b = .error (.validation m) ∧ handle ds dn p b = handle ds dn p b') := by
  obtain ⟨uq, tk⟩ := p
  refine ⟨?_, ?_, ?_, ?_, ?_⟩
  · rintro rfl; exact ⟨_, rfl⟩
  · rintro rfl; exact ⟨_, rfl⟩
  · rintro n rfl; exact ⟨_, rfl⟩
  · rintro rfl
    cases uq with
    | none => exact ⟨_, rfl⟩
    | some v =>
      cases v with
      | jstr s => exact ⟨_, rfl⟩
      | jint n => exact ⟨_, rfl⟩
      | jnull => exact ⟨_, rfl⟩
  · intro m hm
    unfold handle
    rw [hm]
    exact ⟨rfl, rfl⟩

/-- C9 witness: the payload with no fields at all is rejected with the
required-field error, identically for two different backend states. -/
theorem C9_validation_rejects_before_stages_witness :
    handle (fun s => s) (fun _ => "0") ⟨none, none⟩
        ⟨.ok (some [("t", 1)]), .ok [], .stream [] false⟩ =
      .error (.validation "user_query: Field required")
    ∧ handle (fun s => s) (fun _ => "0") ⟨none, none⟩
        ⟨.ok (some [("t", 1)]), .ok [], .stream [] false⟩ =
      handle (fun s => s) (fun _ => "0") ⟨none, none⟩ ⟨.requestError, .fail, .httpError 500⟩ :=
  (C9_validation_rejects_before_stages (fun s => s) (fun _ => "0") ⟨none, none⟩
    ⟨.ok (some [("t", 1)]), .ok [], .stream [] false⟩
    ⟨.requestError, .fail, .httpError 500⟩).2.2.2.2 "user_query: Field required" rfl

end AppApi

/-! ## Properties of the encoder post-processing and ingestion filter
(claims C2 and C8) -/

namespace SpladeApi

/-- Rounding half to even never goes below the floor. -/
theorem roundHalfEven_nonneg (q : Rat) (h : 0 ≤ q) : 0 ≤ roundHalfEven q := by
  have hf : (0 : Int) ≤ ⌊q⌋ := by
    rw [Int.le_floor]
    exact_mod_cast h
  unfold roundHalfEven
  split
  · exact hf
  · split
    · omega
    · split <;> omega

/-- Rounding a nonnegative weight to four decimal places is nonnegative. -/
theorem pyRound4_nonneg (w : Rat) (h : 0 ≤ w) : 0 ≤ pyRound4 w := by
  unfold pyRound4
  have h1 : (0 : Int) ≤ roundHalfEven (w * 10000) := by
    apply roundHalfEven_nonneg
    positivity
  have h2 : (0 : Rat) ≤ (roundHalfEven (w * 10000) : Rat) := by exact_mod_cast h1
  positivity

/-- Dict assignment only introduces the assigned pair. -/
theorem mem_insertEntry {m : SparseVec} {k : String} {v : Rat} {kv : String × Rat}
    (h : kv ∈ insertEntry m k v) : kv ∈ m ∨ kv = (k, v) := by
  unfold insertEntry at h
  split at h
  · obtain ⟨a, ha, hkv⟩ := List.mem_map.mp h
    by_cases hk : a.1 = k
    · right
      rw [← hkv]
      simp [hk]
    · left
      rw [← hkv]
      simpa [hk] using ha
  · rcases List.mem_append.mp h with h' | h'
    · exact Or.inl h'
    · right
      simpa using h'

/-- Every entry the encoder loop adds to the accumulator is the sanitized
token of a strictly positive weight, rounded. -/
theorem mem_encodeLoop {P : String × Rat → Prop} (f : Nat → String)
    (l : List (Nat × Rat)) (sv : SparseVec)
    (hsv : ∀ kv ∈ sv, P kv)
    (hnew : ∀ idx w, 0 < w → P (sanitize (f idx), pyRound4 w)) :
    ∀ kv ∈ encodeLoop f l sv, P kv := by
  induction l generalizing sv with
  | nil => exact hsv
  | cons p rest ih =>
    obtain ⟨idx, w⟩ := p
    unfold encodeLoop
    split
    · split
      · refine ih _ (fun kv hkv => ?_)
        rcases mem_insertEntry hkv with h' | h'
        · exact hsv kv h'
        · rw [h']
          exact hnew idx w (by assumption)
      · exact ih _ hsv
    · exact ih _ hsv

/-- C2 counterexample: a raw activation weight of `1/25000 = 0.00004` is
strictly positive, so the entry is kept, but rounding it to four decimal
places stores the weight `0` — a non-positive weight in the returned map. -/
theorem C2_counterexample_rounded_zero :
    ("t", (0 : Rat)) ∈ encode (fun _ => "t") [(1 : Rat)/25000]
    ∧ ¬ (0 : Rat) < 0 := by
  constructor
  · have h : encode (fun _ => "t") [(1 : Rat)/25000] = [("t", 0)] := by
      simp only [encode, List.enum, List.enumFrom, encodeLoop, insertEntry, pyRound4,
        roundHalfEven]
      norm_num
      rfl
    rw [h]
    exact List.mem_singleton.mpr rfl
  · exact lt_irrefl 0

/-- C2 (amended): every entry of the SparseVector returned by `encode` has a
nonnegative weight; the weight is kept only when it is strictly positive
before rounding, but the round-to-4-decimal-places step can turn a weight
below 0.00005 into an exact 0. -/
theorem C2_encode_weights_nonneg (f : Nat → String) (weights : List Rat) :
    ∀ kv ∈ encode f weights, 0 ≤ kv.2 := by
  refine mem_encodeLoop f weights.enum [] (by simp) ?_
  intro idx w hw
  exact pyRound4_nonneg w hw.le

/-- C2 witness: the zero entry produced from the raw weight 0.00004
satisfies the amended bound. -/
theorem C2_encode_weights_nonneg_witness :
    (0 : Rat) ≤ ("t", (0 : Rat)).2 :=
  C2_encode_weights_nonneg (fun _ => "t") [(1 : Rat)/25000] ("t", 0) (by
    have h : encode (fun _ => "t") [(1 : Rat)/25000] = [("t", 0)] := by
      simp only [encode, List.enum, List.enumFrom, encodeLoop, insertEntry, pyRound4,
        roundHalfEven]
      norm_num
      rfl
    rw [h]
    exact List.mem_singleton.mpr rfl)

/-- Sanitized tokens contain no `'.'` character. -/
theorem sanitize_no_dot (t : String) : '.' ∉ (sanitize t).data := by
  intro h
  unfold sanitize at h
  obtain ⟨c, _, hc⟩ := List.mem_map.mp h
  by_cases h' : c = '.' <;> simp [h'] at hc

end SpladeApi

/-- C8: every `sparse_vector` the ingestion loop prepares for a bulk write
contains only entries with weight strictly greater than 0, and every token
key `encode` produces contains no `'.'` character. -/
theorem C8_persisted_vector_invariants (split : String → List String)
    (enc : String → SparseVec) (docs : List Indexer.Document) :
    (∀ a ∈ Indexer.buildActions split enc docs, ∀ kv ∈ a.sparse_vector, 0 < kv.2)
    ∧ (∀ (f : Nat → String) (weights : List Rat) (kv : String × Rat),
        kv ∈ SpladeApi.encode f weights → '.' ∉ kv.1.data) := by
  constructor
  · intro a ha kv hkv
    obtain ⟨doc, _, ha'⟩ := List.mem_flatMap.mp ha
    unfold Indexer.chunkActions at ha'
    obtain ⟨p, _, hpa⟩ := List.mem_filterMap.mp ha'
    dsimp only at hpa
    split at hpa
    · cases hpa
    · split at hpa
      · cases hpa
      · cases hpa
        have := (List.mem_filter.mp hkv).2
        exact of_decide_eq_true this
  · intro f weights kv hkv
    refine @SpladeApi.mem_encodeLoop (fun kv => '.' ∉ kv.1.data) f weights.enum []
      (by simp) ?_ kv hkv
    intro idx w _
    exact SpladeApi.sanitize_no_dot (f idx)

/-- C8 witness: a one-document, one-chunk ingestion run produces an action
whose single entry has positive weight, and the encoder's key for token
`"a.b"` is dot-free. -/
theorem C8_persisted_vector_invariants_witness :
    (0 : Rat) < (("a", (1 : Rat))).2
    ∧ '.' ∉ (SpladeApi.sanitize "a.b").data :=
  ⟨(C8_persisted_vector_invariants (fun s => [s]) (fun _ => [("a", 1)])
      [⟨"T", "C", "U"⟩]).1
    ⟨"T", "C", "U", [("a", 1)], 0⟩
    (by
      simp only [Indexer.buildActions, Indexer.chunkActions, List.flatMap_cons,
        List.flatMap_nil, List.enum, List.enumFrom, List.filterMap, List.append_nil]
      norm_num)
    ("a", 1) (by exact List.mem_singleton.mpr rfl),
   (C8_persisted_vector_invariants (fun s => [s]) (fun _ => [("a", 1)])
      [⟨"T", "C", "U"⟩]).2
    (fun _ => "a.b") [1] (SpladeApi.sanitize "a.b", SpladeApi.pyRound4 1)
    (by
      show _ ∈ SpladeApi.encodeLoop _ _ _
      simp only [SpladeApi.encodeLoop, SpladeApi.insertEntry]
      norm_num)⟩

/-! ## Properties of the streaming side (claims C1 and C7) -/

namespace AppApi

/-- The text fragment a generator record carries, if any. -/
def respOf : OllamaLine → Option String
  | .chunk (some t) _ => some t
  | _ => none

/-- Modelled from the spec: the generator records actually consumed — the
sequence of incremental units up to and including the first one whose
completion flag is set, or all of them if none is. -/
def takeToDone : List OllamaLine → List OllamaLine
  | [] => []
  | .chunk resp true :: _ => [.chunk resp true]
  | l :: rest => l :: takeToDone rest

/-- C7: the orchestrator's generator loop emits exactly the text fragments
of the records up to the first completion flag (or up to exhaustion), in
order; and a mid-generation transport failure appends one human-readable
error fragment to the already-open stream — after the metadata frame — and
only when the loop had not already ended at a completion flag. -/
theorem C7_generator_consumption (lines : List OllamaLine) (midFail : Bool)
    (ds : String → String) (dn : Rat → String) (contexts : List Hit) :
    consumeLines lines = (takeToDone lines).filterMap respOf
    ∧ generate_response_stream ds dn contexts (.stream lines midFail) =
        (metadataDump ds dn contexts ++ "\n---\n") ::
          (consumeLines lines ++
            (if midFail && !stoppedEarly lines then
              ["Error: Failed to connect to LLM service."]
            else [])) := by
  constructor
  · induction lines with
    | nil => rfl
    | cons l rest ih =>
      cases l with
      | blank => simpa [consumeLines, takeToDone, respOf] using ih
      | invalid => simpa [consumeLines, takeToDone, respOf] using ih
      | chunk resp done =>
        cases done with
        | true => cases resp <;> simp [consumeLines, takeToDone, respOf]
        | false => cases resp <;> simp [consumeLines, takeToDone, respOf, ih]
  · rfl

end AppApi

/-! Claim C1 -/

namespace AppApi

/-- Unfolding of `String.intercalate`'s accumulator loop. -/
theorem intercalate_go_cons (l : List String) :
    ∀ a b sep : String,
      String.intercalate.go a sep (b :: l) = a ++ sep ++ String.intercalate.go b sep l := by
  induction l with
  | nil => intro a b sep; rfl
  | cons c l' ih =>
    intro a b sep
    show String.intercalate.go (a ++ sep ++ b) sep (c :: l') = _
    rw [ih, ih]
    simp [String.append_assoc]

/-- Array elements are serialized in order, `", "`-separated. -/
theorem dumpsArr_eq_intercalate (ds : String → String) (dn : Rat → String)
    (es : List Json) :
    dumpsArr ds dn es = String.intercalate ", " (es.map (dumps ds dn)) := by
  induction es with
  | nil => rfl
  | cons e rest ih =>
    cases rest with
    | nil => rfl
    | cons e' rest' =>
      rw [dumpsArr, ih]
      show _ = String.intercalate.go (dumps ds dn e) ", " _
      simp only [List.map_cons]
      rw [intercalate_go_cons]
      rfl

/-- C1: for every query request that reaches the streaming stage, the
response stream's first element — emitted exactly once, before any
generator output — is the serialized metadata record followed by the
`"\n---\n"` delimiter, and the serialized record is the `type` tag plus the
ordered `{title, url, score}` projection of exactly the hits retrieved for
the request's query vector (`search_documents` applied to the encoder's
output, the request's search outcome and its `top_k`). -/
theorem C1_metadata_frame_first (ds : String → String) (dn : Rat → String)
    (req : QueryRequest) (b : Backends) (r : QueryResponse)
    (h : query_pipeline ds dn req b = .ok r) :
    ∃ qv : SparseVec,
      get_query_vector b.encoder = .ok qv
      ∧ r.stream =
          (metadataDump ds dn (search_documents qv b.search req.top_k).1 ++ "\n---\n") ::
            ollamaBody b.ollama
      ∧ r.stream.head? =
          some (metadataDump ds dn (search_documents qv b.search req.top_k).1 ++ "\n---\n")
      ∧ metadataDump ds dn (search_documents qv b.search req.top_k).1 =
          "\x7b" ++ ds "type" ++ ": " ++ ds "metadata" ++ ", " ++ ds "sources" ++ ": " ++
            ("[" ++ String.intercalate ", "
              (((search_documents qv b.search req.top_k).1).map fun c =>
                "\x7b" ++ ds "title" ++ ": " ++ ds c.title ++ ", " ++ ds "url" ++ ": " ++
                  ds c.url ++ ", " ++ ds "score" ++ ": " ++ dn c.score ++ "\x7d") ++
            "]\x7d") := by
  obtain ⟨enc, srch, oll⟩ := b
  have hdump : ∀ contexts : List Hit, metadataDump ds dn contexts =
      "\x7b" ++ ds "type" ++ ": " ++ ds "metadata" ++ ", " ++ ds "sources" ++ ": " ++
        ("[" ++ String.intercalate ", " (contexts.map fun c =>
          "\x7b" ++ ds "title" ++ ": " ++ ds c.title ++ ", " ++ ds "url" ++ ": " ++
            ds c.url ++ ", " ++ ds "score" ++ ": " ++ dn c.score ++ "\x7d") ++
        "]\x7d") := by
    intro contexts
    simp only [metadataDump, metadataJson, dumps, dumpsObj, dumpsArr_eq_intercalate,
      List.map_map, Function.comp_def]
    simp [String.append_assoc]
  cases henc : enc with
  | ok body =>
    rw [query_pipeline] at h
    simp only [henc, get_query_vector] at h
    cases h
    exact ⟨body.getD [], rfl, rfl, rfl, hdump _⟩
  | statusError c => rw [query_pipeline] at h; simp [henc, get_query_vector] at h
  | requestError => rw [query_pipeline] at h; simp [henc, get_query_vector] at h
  | otherError msg => rw [query_pipeline] at h; simp [henc, get_query_vector] at h

/-- C1 witness: a concrete request whose search backend returns one hit
streams, first, the metadata frame of exactly that retrieved hit's
projection. -/
theorem C1_metadata_frame_first_witness :
    query_pipeline (fun s => "\"" ++ s ++ "\"") (fun _ => "1") ⟨"q", 5⟩
        ⟨.ok (some [("t", 1)]), .ok [⟨some "T", some "C", some "U", 2⟩], .stream [] false⟩ =
      .ok ⟨build_prompt "q" [⟨"T", "C", "U", 2⟩],
           generate_response_stream (fun s => "\"" ++ s ++ "\"") (fun _ => "1")
             [⟨"T", "C", "U", 2⟩] (.stream [] false)⟩
    ∧ ∃ qv : SparseVec,
        get_query_vector (.ok (some [("t", 1)])) = .ok qv
        ∧ (generate_response_stream (fun s => "\"" ++ s ++ "\"") (fun _ => "1")
            [⟨"T", "C", "U", 2⟩] (.stream [] false)) =
          (metadataDump (fun s => "\"" ++ s ++ "\"") (fun _ => "1")
              (search_documents qv (.ok [⟨some "T", some "C", some "U", 2⟩]) 5).1 ++
            "\n---\n") :: ollamaBody (.stream [] false)
        ∧ (generate_response_stream (fun s => "\"" ++ s ++ "\"") (fun _ => "1")
            [⟨"T", "C", "U", 2⟩] (.stream [] false)).head? =
          some (metadataDump (fun s => "\"" ++ s ++ "\"") (fun _ => "1")
              (search_documents qv (.ok [⟨some "T", some "C", some "U", 2⟩]) 5).1 ++
            "\n---\n")
        ∧ metadataDump (fun s => "\"" ++ s ++ "\"") (fun _ => "1")
            (search_documents qv (.ok [⟨some "T", some "C", some "U", 2⟩]) 5).1 =
            "\x7b" ++ (fun s => "\"" ++ s ++ "\"") "type" ++ ": " ++
              (fun s => "\"" ++ s ++ "\"") "metadata" ++ ", " ++
              (fun s => "\"" ++ s ++ "\"") "sources" ++ ": " ++
              ("[" ++ String.intercalate ", "
                (((search_documents qv (.ok [⟨some "T", some "C", some "U", 2⟩]) 5).1).map
                  fun c =>
                    "\x7b" ++ (fun s => "\"" ++ s ++ "\"") "title" ++ ": " ++
                      (fun s => "\"" ++ s ++ "\"") c.title ++ ", " ++
                      (fun s => "\"" ++ s ++ "\"") "url" ++ ": " ++
                      (fun s => "\"" ++ s ++ "\"") c.url ++ ", " ++
                      (fun s => "\"" ++ s ++ "\"") "score" ++ ": " ++
                      (fun _ : Rat => "1") c.score ++ "\x7d") ++
              "]\x7d") :=
  ⟨by rfl,
   C1_metadata_frame_first (fun s => "\"" ++ s ++ "\"") (fun _ => "1") ⟨"q", 5⟩
     ⟨.ok (some [("t", 1)]), .ok [⟨some "T", some "C", some "U", 2⟩], .stream [] false⟩
     ⟨build_prompt "q" [⟨"T", "C", "U", 2⟩],
      generate_response_stream (fun s => "\"" ++ s ++ "\"") (fun _ => "1")
        [⟨"T", "C", "U", 2⟩] (.stream [] false)⟩ (by rfl)⟩

end AppApi

/-! ## Properties of the stream parser (claim C3) -/

namespace WebUI

/-- A list that begins with `d` still begins with `d` after appending. -/
theorem prefixOf_append {d : List Char} :
    ∀ {l : List Char} (t : List Char), d.isPrefixOf l = true → d.isPrefixOf (l ++ t) = true := by
  induction d with
  | nil => intro l t _; cases l <;> simp [List.isPrefixOf]
  | cons a as ih =>
    intro l t h
    cases l with
    | nil => simp [List.isPrefixOf] at h
    | cons b bs =>
      simp only [List.isPrefixOf, Bool.and_eq_true] at h
      simp only [List.cons_append, List.isPrefixOf, Bool.and_eq_true]
      exact ⟨h.1, ih t h.2⟩

/-- A list that begins with `d` is at least as long as `d`. -/
theorem prefixOf_length {d : List Char} :
    ∀ {l : List Char}, d.isPrefixOf l = true → d.length ≤ l.length := by
  induction d with
  | nil => intro l _; simp
  | cons a as ih =>
    intro l h
    cases l with
    | nil => simp [List.isPrefixOf] at h
    | cons b bs =>
      simp only [List.isPrefixOf, Bool.and_eq_true] at h
      simpa using ih h.2

/-- Appending cannot create a prefix once the candidate is short enough to be
decided by `l` alone. -/
theorem prefixOf_append_of_not {d : List Char} :
    ∀ {l : List Char} (t : List Char), d.isPrefixOf l = false → d.length ≤ l.length →
      d.isPrefixOf (l ++ t) = false := by
  induction d with
  | nil => intro l t h _; cases l <;> simp [List.isPrefixOf] at h
  | cons a as ih =>
    intro l t h hlen
    cases l with
    | nil => simp at hlen
    | cons b bs =>
      rw [List.cons_append]
      simp only [List.isPrefixOf] at h ⊢
      cases hab : (a == b) with
      | false => simp [hab]
      | true =>
        rw [hab, Bool.true_and] at h
        have hrec := ih t h (by simpa using hlen)
        simp [hab, hrec]

/-- A found split means the delimiter fits inside the buffer. -/
theorem splitFirst_length {d : List Char} :
    ∀ {s p q : List Char}, splitFirst d s = some (p, q) → d.length ≤ s.length := by
  intro s
  induction s with
  | nil => intro p q h; simp [splitFirst] at h
  | cons c cs ih =>
    intro p q h
    rw [splitFirst] at h
    by_cases hp : d.isPrefixOf (c :: cs) = true
    · exact prefixOf_length hp
    · rw [if_neg (by simp [hp])] at h
      rcases hcs : splitFirst d cs with _ | ⟨p', q'⟩ <;> rw [hcs] at h
      · cases h
      · have := ih hcs
        simp only [List.length_cons]
        omega

/-- Splitting at the first delimiter occurrence is stable under appending
more input: the head part is unchanged and the tail grows. -/
theorem splitFirst_append {d : List Char} :
    ∀ {s p q : List Char} (t : List Char),
      splitFirst d s = some (p, q) → splitFirst d (s ++ t) = some (p, q ++ t) := by
  intro s
  induction s with
  | nil => intro p q t h; simp [splitFirst] at h
  | cons c cs ih =>
    intro p q t h
    rw [splitFirst] at h
    cases hp : d.isPrefixOf (c :: cs) with
    | true =>
      rw [if_pos hp] at h
      have hlen : d.length ≤ (c :: cs).length := prefixOf_length hp
      have hp1 : p = [] := (congrArg (fun o => (o.getD ([], [])).1) h).symm
      have hq1 : q = (c :: cs).drop d.length := (congrArg (fun o => (o.getD ([], [])).2) h).symm
      subst hp1
      subst hq1
      have hp' : d.isPrefixOf (c :: (cs ++ t)) = true := by
        have := prefixOf_append t hp
        rwa [List.cons_append] at this
      rw [List.cons_append, splitFirst, if_pos hp']
      have hd : (c :: (cs ++ t)).drop d.length = (c :: cs).drop d.length ++ t := by
        rw [← List.cons_append]
        exact List.drop_append_of_le_length hlen
      rw [hd]
    | false =>
      rw [if_neg (by simp [hp])] at h
      rcases hcs : splitFirst d cs with _ | ⟨p', q'⟩ <;> rw [hcs] at h
      · cases h
      · have hp1 : p = c :: p' := (congrArg (fun o => (o.getD ([], [])).1) h).symm
        have hq1 : q = q' := (congrArg (fun o => (o.getD ([], [])).2) h).symm
        subst hp1
        subst hq1
        have hlen : d.length ≤ (c :: cs).length := by
          have := splitFirst_length hcs
          simp only [List.length_cons]
          omega
        have hp2 : d.isPrefixOf (c :: (cs ++ t)) = false := by
          have := prefixOf_append_of_not t hp hlen
          rwa [List.cons_append] at this
        rw [List.cons_append, splitFirst, if_neg (by simp [hp2]), ih t hcs]

/-- Processing one read and then another is the same as processing their
concatenation in a single read: the parser state only depends on the bytes
accumulated so far, not on where they were cut. -/
theorem uiStep_comp {α : Type} (parse : List Char → Option (List α))
    (st : UIState α) (c1 c2 : List Char) :
    uiStep parse (uiStep parse st c1) c2 = uiStep parse st (c1 ++ c2) := by
  obtain ⟨b, received, srcs, full⟩ := st
  cases received with
  | true => simp [uiStep, List.append_assoc]
  | false =>
    rcases hsplit : splitFirst delim (b ++ c1) with _ | ⟨p, rest⟩
    · have h1 : uiStep parse ⟨b, false, srcs, full⟩ c1 = ⟨b ++ c1, false, srcs, full⟩ := by
        simp [uiStep, hsplit]
      rw [h1]
      simp only [uiStep, List.append_assoc]
    · rcases hparse : parse p with _ | srcs'
      · have h1 : uiStep parse ⟨b, false, srcs, full⟩ c1 = ⟨b ++ c1, false, srcs, full⟩ := by
          simp [uiStep, hsplit, hparse]
        rw [h1]
        have h2 : splitFirst delim (b ++ (c1 ++ c2)) = some (p, rest ++ c2) := by
          rw [← List.append_assoc]
          exact splitFirst_append c2 hsplit
        simp only [uiStep, List.append_assoc, h2, hparse]
      · have h1 : uiStep parse ⟨b, false, srcs, full⟩ c1 = ⟨rest, true, srcs', rest⟩ := by
          simp [uiStep, hsplit, hparse]
        rw [h1]
        have h2 : splitFirst delim (b ++ (c1 ++ c2)) = some (p, rest ++ c2) := by
          rw [← List.append_assoc]
          exact splitFirst_append c2 hsplit
        simp [uiStep, h2, hparse]

/-- Folding the parser over a non-empty chunk list is one step on the
flattened input. -/
theorem uiFold_flatten {α : Type} (parse : List Char → Option (List α)) :
    ∀ (chunks : List (List Char)) (st : UIState α), chunks ≠ [] →
      chunks.foldl (uiStep parse) st = uiStep parse st chunks.flatten := by
  intro chunks
  induction chunks with
  | nil => intro st h; cases h rfl
  | cons c rest ih =>
    intro st _
    cases rest with
    | nil => simp [uiStep]
    | cons c' rest' =>
      rw [List.foldl_cons, ih (uiStep parse st c) (by simp), List.flatten_cons,
        uiStep_comp]
      simp [List.flatten_cons]

/-- C3: the stream parser is insensitive to how the byte stream is
partitioned into reads — for every input string and every way of cutting it
into chunks, the final parser state (extracted metadata sources and
accumulated generated text included) equals the state after reading the
whole string in one read. -/
theorem C3_parser_chunking_invariant {α : Type} (parse : List Char → Option (List α))
    (s : List Char) (chunks : List (List Char)) (h : chunks.flatten = s) :
    uiRun parse chunks = uiRun parse [s] := by
  subst h
  cases chunks with
  | nil => rfl
  | cons c rest =>
    rw [uiRun, uiRun, uiFold_flatten parse (c :: rest) (uiInit α) (by simp),
      List.foldl_cons, List.foldl_nil]

/-- C3 witness: the specification's robustness example
`{"type":"metadata","sources":[]}\n---\nHello`, cut in the middle of the
metadata object, parses to the same state as the unsplit read, with sources
extracted and accumulated text `"Hello"`. -/
theorem C3_parser_chunking_invariant_witness :
    uiRun (fun m => if m = "\x7b\"type\":\"metadata\",\"sources\":[]\x7d".data
        then some ([] : List Nat) else none)
      ["\x7b\"type\":\"metadata\",\"so".data, "urces\":[]\x7d\n---\nHello".data] =
      uiRun (fun m => if m = "\x7b\"type\":\"metadata\",\"sources\":[]\x7d".data
          then some ([] : List Nat) else none)
        ["\x7b\"type\":\"metadata\",\"sources\":[]\x7d\n---\nHello".data]
    ∧ (uiRun (fun m => if m = "\x7b\"type\":\"metadata\",\"sources\":[]\x7d".data
          then some ([] : List Nat) else none)
        ["\x7b\"type\":\"metadata\",\"sources\":[]\x7d\n---\nHello".data]).full_response =
      "Hello".data
    ∧ (uiRun (fun m => if m = "\x7b\"type\":\"metadata\",\"sources\":[]\x7d".data
          then some ([] : List Nat) else none)
        ["\x7b\"type\":\"metadata\",\"sources\":[]\x7d\n---\nHello".data]).metadata_received =
      true :=
  ⟨C3_parser_chunking_invariant
      (fun m => if m = "\x7b\"type\":\"metadata\",\"sources\":[]\x7d".data
        then some ([] : List Nat) else none)
      "\x7b\"type\":\"metadata\",\"sources\":[]\x7d\n---\nHello".data
      ["\x7b\"type\":\"metadata\",\"so".data, "urces\":[]\x7d\n---\nHello".data]
      (by decide),
   by decide, by decide⟩

end WebUI

/-! ## Properties of the ingestion batching loop (claim C6) -/

namespace Indexer

/-- Unfolding of `chunksOf50` on a non-empty list. -/
theorem chunksOf50_eq (l : List Action) (hl : l ≠ []) :
    chunksOf50 l = l.take 50 :: chunksOf50 (l.drop 50) := by
  cases l with
  | nil => cases hl rfl
  | cons a rest => rw [chunksOf50]

/-- `chunksOf50` of the empty list only. -/
theorem chunksOf50_nil_iff (l : List Action) : chunksOf50 l = [] ↔ l = [] := by
  constructor
  · intro h
    cases l with
    | nil => rfl
    | cons a rest => rw [chunksOf50] at h; cases h
  · rintro rfl
    rw [chunksOf50]

/-- Every batch is non-empty and holds at most 50 actions. -/
theorem chunksOf50_sizes (l : List Action) :
    ∀ b ∈ chunksOf50 l, b ≠ [] ∧ b.length ≤ 50 := by
  cases l with
  | nil => rw [chunksOf50]; intro b hb; cases hb
  | cons a rest =>
    rw [chunksOf50_eq _ (by simp)]
    intro b hb
    rcases List.mem_cons.mp hb with rfl | hb'
    · refine ⟨by simp, ?_⟩
      rw [List.length_take]
      omega
    · exact chunksOf50_sizes _ b hb'
termination_by l.length
decreasing_by
  simp only [List.length_drop, List.length_cons]
  omega

/-- Every batch except possibly the last holds exactly 50 actions. -/
theorem chunksOf50_full_sizes (l : List Action) :
    ∀ b ∈ (chunksOf50 l).dropLast, b.length = 50 := by
  cases l with
  | nil => rw [chunksOf50]; intro b hb; cases hb
  | cons a rest =>
    rw [chunksOf50_eq _ (by simp)]
    rcases hC : chunksOf50 ((a :: rest).drop 50) with _ | ⟨c, cs⟩
    · intro b hb
      simp [List.dropLast] at hb
    · intro b hb
      rw [List.dropLast_cons_of_ne_nil (by simp)] at hb
      rcases List.mem_cons.mp hb with rfl | hb'
      · have hne : (a :: rest).drop 50 ≠ [] := by
          intro he
          rw [he] at hC
          rw [chunksOf50] at hC
          cases hC
        have hlen : 50 < (a :: rest).length := by
          by_contra hle
          exact hne (List.drop_eq_nil_of_le (by omega))
        rw [List.length_take]
        omega
      · have := chunksOf50_full_sizes ((a :: rest).drop 50)
        rw [hC] at this
        exact this b hb'
termination_by l.length
decreasing_by
  simp only [List.length_drop, List.length_cons]
  omega

/-- The accumulate-and-flush loop equals flushing the 50-chunking of the
pending prefix followed by the remaining input. -/
theorem indexLoop_eq (store : Store) :
    ∀ (input pending : List Action) (committed : List (List Action)),
      pending.length < 50 →
      indexLoop store input pending committed =
        (committed ++ (flushSpec store (chunksOf50 (pending ++ input))).1,
         (flushSpec store (chunksOf50 (pending ++ input))).2) := by
  intro input
  induction input with
  | nil =>
    intro pending committed hlen
    rw [List.append_nil]
    cases hp : pending with
    | nil =>
      rw [indexLoop, chunksOf50, flushSpec]
      simp
    | cons p ps =>
      rw [indexLoop]
      rw [chunksOf50_eq _ (by simp)]
      rw [List.take_of_length_le (by rw [← hp]; omega),
        List.drop_eq_nil_of_le (by rw [← hp]; omega), chunksOf50]
      simp only [List.isEmpty_cons, Bool.false_eq_true, if_false]
      cases hs : store (p :: ps) with
      | ok u => rw [flushSpec, hs]; rfl
      | error e => rw [flushSpec, hs]; simp
  | cons a rest ih =>
    intro pending committed hlen
    rw [indexLoop]
    simp only [List.length_append, List.length_cons, List.length_nil]
    have hpc : pending ++ a :: rest = (pending ++ [a]) ++ rest := by
      rw [List.append_assoc]
      rfl
    by_cases h50 : 50 ≤ pending.length + 1
    · rw [if_pos (by simpa using h50)]
      have hplen : (pending ++ [a]).length = 50 := by
        simp only [List.length_append, List.length_cons, List.length_nil]
        omega
      have hchunk : chunksOf50 (pending ++ a :: rest) =
          (pending ++ [a]) :: chunksOf50 rest := by
        rw [hpc, chunksOf50_eq _ (by simp)]
        rw [List.take_left' hplen, List.drop_left' hplen]
      rw [hchunk]
      cases hs : store (pending ++ [a]) with
      | ok u =>
        rw [ih [] (committed ++ [pending ++ [a]]) (by simp)]
        rw [flushSpec, hs]
        simp [List.append_assoc]
      | error e =>
        rw [flushSpec, hs]
        simp
    · rw [if_neg (by simpa using h50)]
      rw [ih (pending ++ [a]) committed (by simp; omega)]
      rw [hpc]

/-- Flushing with no reported error commits every prepared batch. -/
theorem flushSpec_none (store : Store) :
    ∀ batches, (flushSpec store batches).2 = none →
      (flushSpec store batches).1 = batches ∧ ∀ b ∈ batches, store b = .ok () := by
  intro batches
  induction batches with
  | nil => intro _; exact ⟨rfl, by simp⟩
  | cons b bs ih =>
    intro h
    cases hs : store b with
    | ok u =>
      simp only [flushSpec, hs] at h ⊢
      obtain ⟨h1, h2⟩ := ih h
      refine ⟨by rw [h1], ?_⟩
      intro b' hb'
      rcases List.mem_cons.mp hb' with rfl | hb''
      · rw [hs]
      · exact h2 b' hb''
    | error e => simp only [flushSpec, hs] at h; cases h

/-- Flushing that reports an error committed exactly the batches before the
first rejected one, and that batch's rejection is the reported error. -/
theorem flushSpec_some (store : Store) :
    ∀ batches e, (flushSpec store batches).2 = some e →
      ∃ k failing,
        (flushSpec store batches).1 = batches.take k
        ∧ batches[k]? = some failing
        ∧ store failing = .error e
        ∧ ∀ b ∈ batches.take k, store b = .ok () := by
  intro batches
  induction batches with
  | nil => intro e h; cases h
  | cons b bs ih =>
    intro e h
    cases hs : store b with
    | ok u =>
      simp only [flushSpec, hs] at h ⊢
      obtain ⟨k, failing, h1, h2, h3, h4⟩ := ih e h
      refine ⟨k + 1, failing, by rw [List.take_succ_cons, h1], by simpa using h2, h3, ?_⟩
      intro b' hb'
      rw [List.take_succ_cons] at hb'
      rcases List.mem_cons.mp hb' with rfl | hb''
      · rw [hs]
      · exact h4 b' hb''
    | error e' =>
      simp only [flushSpec, hs] at h ⊢
      injection h with h'
      subst h'
      exact ⟨0, b, rfl, by simp, hs, by simp⟩

/-- C6: ingestion flushes the prepared action stream in batches of at most
50 — every intermediate batch holding exactly 50 — committing accepted
batches in order; a batch the store rejects aborts the run with the store's
per-document error detail, the batches flushed before it staying committed
and nothing after it being flushed. -/
theorem C6_batched_fail_fast_writes (split : String → List String)
    (enc : String → SparseVec) (store : Store) (docs : List Document) :
    index_documents split enc store docs =
      flushSpec store (chunksOf50 (buildActions split enc docs))
    ∧ (∀ b ∈ chunksOf50 (buildActions split enc docs), b ≠ [] ∧ b.length ≤ 50)
    ∧ (∀ b ∈ (chunksOf50 (buildActions split enc docs)).dropLast, b.length = 50)
    ∧ ((index_documents split enc store docs).2 = none →
        (index_documents split enc store docs).1 = chunksOf50 (buildActions split enc docs)
        ∧ ∀ b ∈ (index_documents split enc store docs).1, store b = .ok ())
    ∧ (∀ e, (index_documents split enc store docs).2 = some e →
        ∃ k failing,
          (index_documents split enc store docs).1 =
            (chunksOf50 (buildActions split enc docs)).take k
          ∧ (chunksOf50 (buildActions split enc docs))[k]? = some failing
          ∧ store failing = .error e
          ∧ ∀ b ∈ (index_documents split enc store docs).1, store b = .ok ()) := by
  have hmain : index_documents split enc store docs =
      flushSpec store (chunksOf50 (buildActions split enc docs)) := by
    rw [index_documents, indexLoop_eq store _ [] [] (by simp)]
    simp
  refine ⟨hmain, chunksOf50_sizes _, chunksOf50_full_sizes _, ?_, ?_⟩
  · intro h
    rw [hmain] at h ⊢
    obtain ⟨h1, h2⟩ := flushSpec_none store _ h
    exact ⟨h1, by rw [h1]; exact h2⟩
  · intro e h
    rw [hmain] at h ⊢
    obtain ⟨k, failing, h1, h2, h3, h4⟩ := flushSpec_some store _ e h
    exact ⟨k, failing, h1, h2, h3, by rw [h1]; exact h4⟩

/-- C6 witness: a one-chunk ingestion run against an accepting store commits
one batch, equal to the flushed 50-chunking of its action stream. -/
theorem C6_batched_fail_fast_writes_witness :
    index_documents (fun s => [s]) (fun _ => [("a", (1 : Rat))]) (fun _ => .ok ())
        [⟨"T", "C", "U"⟩] =
      flushSpec (fun _ => .ok ())
        (chunksOf50 (buildActions (fun s => [s]) (fun _ => [("a", (1 : Rat))])
          [⟨"T", "C", "U"⟩]))
    ∧ index_documents (fun s => [s]) (fun _ => [("a", (1 : Rat))]) (fun _ => .ok ())
        [⟨"T", "C", "U"⟩] = ([[⟨"T", "C", "U", [("a", 1)], 0⟩]], none) :=
  ⟨(C6_batched_fail_fast_writes (fun s => [s]) (fun _ => [("a", (1 : Rat))])
      (fun _ => .ok ()) [⟨"T", "C", "U"⟩]).1,
   by decide⟩

end Indexer

end RagPipeline
